import Mathlib

/-!
VibeCue protocol session engine — verification development.

Shallow embedding of the core of `src/vibecue_v2.js` (the VibeCue protocol
tester): packet framing (`buildPacket` / `parsePacket`), the connect command
builder (`sendConnectDevice`), the inbound response classifier chain
(`updateDeviceStatus`), the scan registry (`addScanResult` /
`clearScanResults`), and the evaluation-summary handler
(`handleEvalStopData`), together with theorems about the observable
behaviour of the receive path (`handleNotification`).

JavaScript strings are modelled as `List Char` (Unicode scalar values) and
byte buffers as `List Nat` (each entry one byte).  `TextEncoder` /
`TextDecoder` are modelled by a real UTF-8 encoder and decoder;
the decoder returns `Option` (`none` on ill-formed input) instead of the
replacement-character lossy strategy, which is equivalent on the well-formed
buffers exercised here.  Wall-clock timestamps attached to log lines and
evaluation rows are display-only data and are not modelled.
-/

namespace VibeCue

/-- The JavaScript whitespace set used by `String.prototype.trim` and
`parseInt`: WhiteSpace (tab, VT, FF, space, NBSP, BOM, Unicode `Zs`) plus
the LineTerminator code points. -/
def isJsWs (c : Char) : Bool :=
  c.toNat = 0x9 || c.toNat = 0xA || c.toNat = 0xB || c.toNat = 0xC ||
  c.toNat = 0xD || c.toNat = 0x20 || c.toNat = 0xA0 || c.toNat = 0x1680 ||
  (0x2000 ≤ c.toNat && c.toNat ≤ 0x200A) || c.toNat = 0x2028 ||
  c.toNat = 0x2029 || c.toNat = 0x202F || c.toNat = 0x205F ||
  c.toNat = 0x3000 || c.toNat = 0xFEFF

/-- Drop leading JavaScript whitespace. -/
def trimLeft (l : List Char) : List Char := l.dropWhile isJsWs

/-- Drop trailing JavaScript whitespace. -/
def trimRight (l : List Char) : List Char := (l.reverse.dropWhile isJsWs).reverse

/-- `String.prototype.trim`: remove leading and trailing whitespace. -/
def jsTrim (l : List Char) : List Char := trimLeft (trimRight l)

/-- UTF-8 encoding of a single Unicode scalar value (`TextEncoder`,
one character). -/
def utf8EncodeChar (c : Char) : List Nat :=
  if c.toNat < 0x80 then [c.toNat]
  else if c.toNat < 0x800 then
    [0xC0 + c.toNat / 64, 0x80 + c.toNat % 64]
  else if c.toNat < 0x10000 then
    [0xE0 + c.toNat / 4096, 0x80 + c.toNat / 64 % 64, 0x80 + c.toNat % 64]
  else
    [0xF0 + c.toNat / 262144, 0x80 + c.toNat / 4096 % 64,
     0x80 + c.toNat / 64 % 64, 0x80 + c.toNat % 64]

/-- UTF-8 encoding of a string (`new TextEncoder().encode`). -/
def utf8Encode : List Char → List Nat
  | [] => []
  | c :: cs => utf8EncodeChar c ++ utf8Encode cs

/-- A UTF-8 continuation byte (`10xxxxxx`). -/
def contByte (b : Nat) : Bool := 0x80 ≤ b && b < 0xC0

/-- UTF-8 decoding (`new TextDecoder().decode`), modelled exactly:
`none` on ill-formed input where the real decoder would emit replacement
characters.  Every buffer produced by `utf8Encode` decodes exactly. -/
def utf8Decode : List Nat → Option (List Char)
  | [] => some []
  | b :: bs =>
    if b < 0x80 then (utf8Decode bs).map (fun cs => Char.ofNat b :: cs)
    else if b < 0xC0 then none
    else if b < 0xE0 then
      match bs with
      | b1 :: bs1 =>
        if contByte b1 then
          (utf8Decode bs1).map (fun cs =>
            Char.ofNat ((b - 0xC0) * 64 + (b1 - 0x80)) :: cs)
        else none
      | [] => none
    else if b < 0xF0 then
      match bs with
      | b1 :: b2 :: bs2 =>
        if contByte b1 && contByte b2 then
          (utf8Decode bs2).map (fun cs =>
            Char.ofNat ((b - 0xE0) * 4096 + (b1 - 0x80) * 64 + (b2 - 0x80)) :: cs)
        else none
      | _ => none
    else if b < 0xF8 then
      match bs with
      | b1 :: b2 :: b3 :: bs3 =>
        if contByte b1 && contByte b2 && contByte b3 then
          (utf8Decode bs3).map (fun cs =>
            Char.ofNat ((b - 0xF0) * 262144 + (b1 - 0x80) * 4096 +
              (b2 - 0x80) * 64 + (b3 - 0x80)) :: cs)
        else none
      | _ => none
    else none

/-- `payload.endsWith('\r\n')`. -/
def endsWithCRLF (l : List Char) : Bool :=
  match l.reverse with
  | '\n' :: '\r' :: _ => true
  | _ => false

/-- The CRLF-completed payload: `buildPacket` appends `\r\n` when absent. -/
def withCRLF (payload : List Char) : List Char :=
  if endsWithCRLF payload then payload else payload ++ ['\r', '\n']

/-- `buildPacket` (src/vibecue_v2.js:31-48): append CRLF if absent, UTF-8
encode, return `null` (here `none`) when the packet exceeds 64 bytes. -/
def buildPacket (payload : List Char) : Option (List Nat) :=
  let packet := utf8Encode (withCRLF payload)
  if packet.length > 64 then none else some packet

/-- `parsePacket` (src/vibecue_v2.js:55-64): decode the buffer as UTF-8 text
and trim surrounding whitespace. -/
def parsePacket (bytes : List Nat) : Option (List Char) :=
  (utf8Decode bytes).map jsTrim

/-- Convenience: the character list of a string literal. -/
def chars (s : String) : List Char := s.data

/-! ## Framer lemmas

The decoder's nested pattern match only reduces once enough of the list's
spine is explicit, so each unfolding lemma below exposes exactly the number
of head bytes its use site provides and is proved by case analysis on the
remaining spine. -/

theorem utf8Decode_cons2_eq (b b1 : Nat) (bs : List Nat) :
    utf8Decode (b :: b1 :: bs) =
      if b < 0x80 then (utf8Decode (b1 :: bs)).map (fun cs => Char.ofNat b :: cs)
      else if b < 0xC0 then none
      else if b < 0xE0 then
        (if contByte b1 then
          (utf8Decode bs).map (fun cs =>
            Char.ofNat ((b - 0xC0) * 64 + (b1 - 0x80)) :: cs)
         else none)
      else if b < 0xF0 then
        (match bs with
         | b2 :: bs2 =>
           if contByte b1 && contByte b2 then
             (utf8Decode bs2).map (fun cs =>
               Char.ofNat ((b - 0xE0) * 4096 + (b1 - 0x80) * 64 + (b2 - 0x80)) :: cs)
           else none
         | [] => none)
      else if b < 0xF8 then
        (match bs with
         | b2 :: b3 :: bs3 =>
           if contByte b1 && contByte b2 && contByte b3 then
             (utf8Decode bs3).map (fun cs =>
               Char.ofNat ((b - 0xF0) * 262144 + (b1 - 0x80) * 4096 +
                 (b2 - 0x80) * 64 + (b3 - 0x80)) :: cs)
           else none
         | _ => none)
      else none := by
  rcases bs with _ | ⟨b2, _ | ⟨b3, bs⟩⟩ <;> rfl

theorem utf8Decode_cons3_eq (b b1 b2 : Nat) (bs : List Nat) :
    utf8Decode (b :: b1 :: b2 :: bs) =
      if b < 0x80 then
        (utf8Decode (b1 :: b2 :: bs)).map (fun cs => Char.ofNat b :: cs)
      else if b < 0xC0 then none
      else if b < 0xE0 then
        (if contByte b1 then
          (utf8Decode (b2 :: bs)).map (fun cs =>
            Char.ofNat ((b - 0xC0) * 64 + (b1 - 0x80)) :: cs)
         else none)
      else if b < 0xF0 then
        (if contByte b1 && contByte b2 then
          (utf8Decode bs).map (fun cs =>
            Char.ofNat ((b - 0xE0) * 4096 + (b1 - 0x80) * 64 + (b2 - 0x80)) :: cs)
         else none)
      else if b < 0xF8 then
        (match bs with
         | b3 :: bs3 =>
           if contByte b1 && contByte b2 && contByte b3 then
             (utf8Decode bs3).map (fun cs =>
               Char.ofNat ((b - 0xF0) * 262144 + (b1 - 0x80) * 4096 +
                 (b2 - 0x80) * 64 + (b3 - 0x80)) :: cs)
           else none
         | [] => none)
      else none := by
  rcases bs with _ | ⟨b3, bs⟩ <;> rfl

theorem utf8Decode_cons4_eq (b b1 b2 b3 : Nat) (bs : List Nat) :
    utf8Decode (b :: b1 :: b2 :: b3 :: bs) =
      if b < 0x80 then
        (utf8Decode (b1 :: b2 :: b3 :: bs)).map (fun cs => Char.ofNat b :: cs)
      else if b < 0xC0 then none
      else if b < 0xE0 then
        (if contByte b1 then
          (utf8Decode (b2 :: b3 :: bs)).map (fun cs =>
            Char.ofNat ((b - 0xC0) * 64 + (b1 - 0x80)) :: cs)
         else none)
      else if b < 0xF0 then
        (if contByte b1 && contByte b2 then
          (utf8Decode (b3 :: bs)).map (fun cs =>
            Char.ofNat ((b - 0xE0) * 4096 + (b1 - 0x80) * 64 + (b2 - 0x80)) :: cs)
         else none)
      else if b < 0xF8 then
        (if contByte b1 && contByte b2 && contByte b3 then
          (utf8Decode bs).map (fun cs =>
            Char.ofNat ((b - 0xF0) * 262144 + (b1 - 0x80) * 4096 +
              (b2 - 0x80) * 64 + (b3 - 0x80)) :: cs)
         else none)
      else none := rfl

theorem utf8Decode_cons_one (b : Nat) (bs : List Nat) (h : b < 0x80) :
    utf8Decode (b :: bs) = (utf8Decode bs).map (fun cs => Char.ofNat b :: cs) := by
  rcases bs with _ | ⟨b1, _ | ⟨b2, bs⟩⟩
  · rw [show utf8Decode [b] =
        (if b < 0x80 then (utf8Decode []).map (fun cs => Char.ofNat b :: cs)
         else if b < 0xC0 then none
         else if b < 0xE0 then none
         else if b < 0xF0 then none
         else if b < 0xF8 then none
         else none) from rfl, if_pos h]
  · rw [utf8Decode_cons2_eq, if_pos h]
  · rw [utf8Decode_cons3_eq, if_pos h]

theorem utf8Decode_cons_two (b b1 : Nat) (bs : List Nat)
    (h1 : ¬ b < 0x80) (h2 : ¬ b < 0xC0) (h3 : b < 0xE0)
    (hc : contByte b1 = true) :
    utf8Decode (b :: b1 :: bs) =
      (utf8Decode bs).map (fun cs =>
        Char.ofNat ((b - 0xC0) * 64 + (b1 - 0x80)) :: cs) := by
  rw [utf8Decode_cons2_eq, if_neg h1, if_neg h2, if_pos h3, if_pos hc]

theorem utf8Decode_cons_three (b b1 b2 : Nat) (bs : List Nat)
    (h1 : ¬ b < 0x80) (h2 : ¬ b < 0xC0) (h3 : ¬ b < 0xE0) (h4 : b < 0xF0)
    (hc : (contByte b1 && contByte b2) = true) :
    utf8Decode (b :: b1 :: b2 :: bs) =
      (utf8Decode bs).map (fun cs =>
        Char.ofNat ((b - 0xE0) * 4096 + (b1 - 0x80) * 64 + (b2 - 0x80)) :: cs) := by
  rw [utf8Decode_cons3_eq, if_neg h1, if_neg h2, if_neg h3, if_pos h4, if_pos hc]

theorem utf8Decode_cons_four (b b1 b2 b3 : Nat) (bs : List Nat)
    (h1 : ¬ b < 0x80) (h2 : ¬ b < 0xC0) (h3 : ¬ b < 0xE0) (h4 : ¬ b < 0xF0)
    (h5 : b < 0xF8)
    (hc : (contByte b1 && contByte b2 && contByte b3) = true) :
    utf8Decode (b :: b1 :: b2 :: b3 :: bs) =
      (utf8Decode bs).map (fun cs =>
        Char.ofNat ((b - 0xF0) * 262144 + (b1 - 0x80) * 4096 +
          (b2 - 0x80) * 64 + (b3 - 0x80)) :: cs) := by
  rw [utf8Decode_cons4_eq, if_neg h1, if_neg h2, if_neg h3, if_neg h4,
    if_pos h5, if_pos hc]

theorem utf8Decode_encodeChar (c : Char) (bs : List Nat) :
    utf8Decode (utf8EncodeChar c ++ bs) =
      (utf8Decode bs).map (fun cs => c :: cs) := by
  have he : c.toNat = c.val.toNat := rfl
  have hval : c.toNat < 0x110000 := by
    rcases c.valid with h | h
    · omega
    · omega
  by_cases h1 : c.toNat < 0x80
  · rw [utf8EncodeChar, if_pos h1, List.cons_append, List.nil_append,
      utf8Decode_cons_one _ _ h1, Char.ofNat_toNat]
  · by_cases h2 : c.toNat < 0x800
    · rw [utf8EncodeChar, if_neg h1, if_pos h2, List.cons_append,
        List.cons_append, List.nil_append]
      have ha : ¬ 0xC0 + c.toNat / 64 < 0x80 := by omega
      have hb : ¬ 0xC0 + c.toNat / 64 < 0xC0 := by omega
      have hcnd : 0xC0 + c.toNat / 64 < 0xE0 := by omega
      have hc : contByte (0x80 + c.toNat % 64) = true := by
        simp only [contByte, Bool.and_eq_true, decide_eq_true_eq]
        omega
      rw [utf8Decode_cons_two _ _ _ ha hb hcnd hc]
      have harith : (0xC0 + c.toNat / 64 - 0xC0) * 64 +
          (0x80 + c.toNat % 64 - 0x80) = c.toNat := by omega
      rw [harith, Char.ofNat_toNat]
    · by_cases h3 : c.toNat < 0x10000
      · rw [utf8EncodeChar, if_neg h1, if_neg h2, if_pos h3,
          List.cons_append, List.cons_append, List.cons_append,
          List.nil_append]
        have ha : ¬ 0xE0 + c.toNat / 4096 < 0x80 := by omega
        have hb : ¬ 0xE0 + c.toNat / 4096 < 0xC0 := by omega
        have hcnd : ¬ 0xE0 + c.toNat / 4096 < 0xE0 := by omega
        have hd : 0xE0 + c.toNat / 4096 < 0xF0 := by omega
        have hc : (contByte (0x80 + c.toNat / 64 % 64) &&
            contByte (0x80 + c.toNat % 64)) = true := by
          simp only [contByte, Bool.and_eq_true, decide_eq_true_eq]
          omega
        rw [utf8Decode_cons_three _ _ _ _ ha hb hcnd hd hc]
        have harith : (0xE0 + c.toNat / 4096 - 0xE0) * 4096 +
            (0x80 + c.toNat / 64 % 64 - 0x80) * 64 +
            (0x80 + c.toNat % 64 - 0x80) = c.toNat := by omega
        rw [harith, Char.ofNat_toNat]
      · rw [utf8EncodeChar, if_neg h1, if_neg h2, if_neg h3,
          List.cons_append, List.cons_append, List.cons_append,
          List.cons_append, List.nil_append]
        have ha : ¬ 0xF0 + c.toNat / 262144 < 0x80 := by omega
        have hb : ¬ 0xF0 + c.toNat / 262144 < 0xC0 := by omega
        have hcnd : ¬ 0xF0 + c.toNat / 262144 < 0xE0 := by omega
        have hd : ¬ 0xF0 + c.toNat / 262144 < 0xF0 := by omega
        have hf : 0xF0 + c.toNat / 262144 < 0xF8 := by omega
        have hc : (contByte (0x80 + c.toNat / 4096 % 64) &&
            contByte (0x80 + c.toNat / 64 % 64) &&
            contByte (0x80 + c.toNat % 64)) = true := by
          simp only [contByte, Bool.and_eq_true, decide_eq_true_eq]
          omega
        rw [utf8Decode_cons_four _ _ _ _ _ ha hb hcnd hd hf hc]
        have harith : (0xF0 + c.toNat / 262144 - 0xF0) * 262144 +
            (0x80 + c.toNat / 4096 % 64 - 0x80) * 4096 +
            (0x80 + c.toNat / 64 % 64 - 0x80) * 64 +
            (0x80 + c.toNat % 64 - 0x80) = c.toNat := by omega
        rw [harith, Char.ofNat_toNat]

theorem utf8Decode_utf8Encode (l : List Char) :
    utf8Decode (utf8Encode l) = some l := by
  induction l with
  | nil => rfl
  | cons c cs ih =>
    rw [utf8Encode, utf8Decode_encodeChar, ih, Option.map_some']

theorem trimRight_append_ws (b t : List Char) (ht : ∀ c ∈ t, isJsWs c = true) :
    trimRight (b ++ t) = trimRight b := by
  unfold trimRight
  rw [List.reverse_append]
  rw [List.dropWhile_append]
  have : t.reverse.dropWhile isJsWs = [] := by
    rw [List.dropWhile_eq_nil_iff]
    intro c hc
    exact ht c (List.mem_reverse.mp hc)
  simp [this]

theorem jsTrim_append_crlf (b : List Char) :
    jsTrim (b ++ ['\r', '\n']) = jsTrim b := by
  unfold jsTrim
  rw [trimRight_append_ws]
  intro c hc
  rcases List.mem_cons.mp hc with rfl | hc
  · decide
  · rw [List.mem_singleton.mp hc]; decide

theorem jsTrim_withCRLF (b : List Char) : jsTrim (withCRLF b) = jsTrim b := by
  unfold withCRLF
  by_cases h : endsWithCRLF b = true
  · rw [if_pos h]
  · rw [if_neg h, jsTrim_append_crlf]

/-- C1: for every command body whose UTF-8 encoding with the CRLF terminator
fits in 64 bytes, `buildPacket` succeeds and the round trip through
`parsePacket` yields the trimmed body. -/
theorem buildPacket_parsePacket_roundtrip (b : List Char)
    (h : (utf8Encode (withCRLF b)).length ≤ 64) :
    ∃ pkt, buildPacket b = some pkt ∧ parsePacket pkt = some (jsTrim b) := by
  refine ⟨utf8Encode (withCRLF b), ?_, ?_⟩
  · rw [buildPacket]
    simp only [gt_iff_lt]
    rw [if_neg (by omega)]
  · rw [parsePacket, utf8Decode_utf8Encode, Option.map_some', jsTrim_withCRLF]

/-- Witness for C1 at the concrete body `"hi"`. -/
theorem buildPacket_parsePacket_roundtrip_witness :
    ∃ pkt, buildPacket ['h', 'i'] = some pkt ∧
      parsePacket pkt = some (jsTrim ['h', 'i']) :=
  buildPacket_parsePacket_roundtrip ['h', 'i'] (by decide)

/-- C2: a command body whose CRLF-completed UTF-8 encoding exceeds 64 bytes
is rejected by `buildPacket` outright: no bytes are produced. -/
theorem buildPacket_oversize (b : List Char)
    (h : 64 < (utf8Encode (withCRLF b)).length) :
    buildPacket b = none := by
  rw [buildPacket]
  simp only [gt_iff_lt]
  rw [if_pos (by omega)]

/-- Witness for C2 at a 70-character body. -/
theorem buildPacket_oversize_witness :
    buildPacket (List.replicate 70 'a') = none :=
  buildPacket_oversize (List.replicate 70 'a') (by decide)

/-! ## String utilities shared by the command builder and classifier -/

/-- `String.prototype.startsWith` on character lists. -/
def startsWithL : List Char → List Char → Bool
  | [], _ => true
  | _ :: _, [] => false
  | p :: ps, c :: cs => p == c && startsWithL ps cs

/-- `String.prototype.includes`: `pat` occurs as a contiguous substring. -/
def hasSub (pat : List Char) : List Char → Bool
  | [] => pat.isEmpty
  | c :: cs => startsWithL pat (c :: cs) || hasSub pat cs

/-- `String.prototype.split` with a single-character separator. -/
def splitOnChar (sep : Char) : List Char → List (List Char)
  | [] => [[]]
  | c :: cs =>
    if c = sep then [] :: splitOnChar sep cs
    else
      match splitOnChar sep cs with
      | f :: rest => (c :: f) :: rest
      | [] => [[c]]

/-- ASCII decimal digit. -/
def isDigit (c : Char) : Bool := '0' ≤ c && c ≤ '9'

/-- ASCII hexadecimal digit, any case (for `parseInt`'s `0x` mode). -/
def isHexDig (c : Char) : Bool :=
  isDigit c || ('a' ≤ c && c ≤ 'f') || ('A' ≤ c && c ≤ 'F')

/-- Numeric value of a hexadecimal digit. -/
def hexDigVal (c : Char) : Nat :=
  if isDigit c then c.toNat - 48
  else if 'a' ≤ c && c ≤ 'f' then c.toNat - 87
  else c.toNat - 55

/-- Value of a decimal digit string. -/
def decToNat (ds : List Char) : Nat :=
  ds.foldl (fun a c => a * 10 + (c.toNat - 48)) 0

/-- Value of a hexadecimal digit string. -/
def hexToNat (ds : List Char) : Nat :=
  ds.foldl (fun a c => a * 16 + hexDigVal c) 0

/-- Decimal branch of `parseInt`: longest digit prefix, `NaN` (`none`) if it
is empty. -/
def parseDec (sign : Int) (l : List Char) : Option Int :=
  let ds := l.takeWhile isDigit
  if ds.isEmpty then none else some (sign * (decToNat ds : Int))

/-- Body of `parseInt` after whitespace and sign handling: `0x`/`0X` prefix
switches to hexadecimal, otherwise the longest decimal digit prefix. -/
def parseIntCore (sign : Int) : List Char → Option Int
  | '0' :: c :: rest =>
    if c = 'x' || c = 'X' then
      let ds := rest.takeWhile isHexDig
      if ds.isEmpty then none else some (sign * (hexToNat ds : Int))
    else parseDec sign ('0' :: c :: rest)
  | l => parseDec sign l

/-- JavaScript `parseInt(s)` with the default radix; `none` models `NaN`. -/
def parseIntJS (s : List Char) : Option Int :=
  match s.dropWhile isJsWs with
  | '-' :: rest => parseIntCore (-1) rest
  | '+' :: rest => parseIntCore 1 rest
  | rest => parseIntCore 1 rest

/-! ## Command Builder: `sendConnectDevice` -/

/-- The two failure modes of `sendConnectDevice`: the empty-input alert
(`'Please enter MAC address'`) and the validation alert
(`'Invalid MAC address. ...'`). -/
inductive ConnectError
  | missingMac
  | invalidMac
deriving DecidableEq

/-- Uppercasing as applied to the MAC input (`String.prototype.toUpperCase`,
restricted to the ASCII mapping, which is all the hex validation can
accept). -/
def upperJs (l : List Char) : List Char := l.map Char.toUpper

/-- `mac.replace(/[:-]/g, '')`. -/
def stripMacSep (l : List Char) : List Char :=
  l.filter fun c => !(c = ':' || c = '-')

/-- Uppercase hexadecimal digit (the regex class `[0-9A-F]`). -/
def isHexUpper (c : Char) : Bool := ('0' ≤ c && c ≤ '9') || ('A' ≤ c && c ≤ 'F')

/-- `sendConnectDevice` (src/vibecue_v2.js:257-275): trim and uppercase the
MAC input, reject blank input, strip `:`/`-`, validate 12 uppercase hex
characters, and build `DM:CONN:{mac}:{location}`. -/
def sendConnectDevice (macInput location : List Char) :
    Except ConnectError (List Char) :=
  let mac := upperJs (jsTrim macInput)
  if mac.isEmpty then .error .missingMac
  else
    let cleanMac := stripMacSep mac
    if cleanMac.length = 12 && cleanMac.all isHexUpper then
      .ok (chars "DM:CONN:" ++ cleanMac ++ [':'] ++ location)
    else .error .invalidMac

/-- C3 counterexample: blank MAC input does not reduce to 12 hex characters,
yet it fails with the missing-input alert, not `InvalidMac`. -/
theorem sendConnectDevice_blank_not_invalidMac :
    sendConnectDevice [' '] (chars "L1") = .error .missingMac ∧
    sendConnectDevice [' '] (chars "L1") ≠ .error .invalidMac := by
  refine ⟨rfl, ?_⟩
  intro h
  exact absurd (Except.error.inj h) (by decide)

/-- C3 (amended): both MAC spellings build the identical command, and every
input that is nonblank after trimming and uppercasing but does not reduce to
exactly 12 uppercase hex characters fails with `InvalidMac`. -/
theorem sendConnectDevice_spec :
    sendConnectDevice (chars "5C:F2:86:47:73:59") (chars "L1")
        = .ok (chars "DM:CONN:5CF286477359:L1") ∧
    sendConnectDevice (chars "5cf286477359") (chars "L1")
        = .ok (chars "DM:CONN:5CF286477359:L1") ∧
    ∀ macInput location,
      upperJs (jsTrim macInput) ≠ [] →
      ((stripMacSep (upperJs (jsTrim macInput))).length = 12 &&
        (stripMacSep (upperJs (jsTrim macInput))).all isHexUpper) = false →
      sendConnectDevice macInput location = .error .invalidMac := by
  refine ⟨rfl, rfl, ?_⟩
  intro macInput location hne hval
  unfold sendConnectDevice
  rw [if_neg (by simpa using hne)]
  simp only [hval]
  rw [if_neg (by simp)]

/-- Witness for the universally quantified part of C3 at the 10-hex-char
input from the spec. -/
theorem sendConnectDevice_spec_witness :
    sendConnectDevice (chars "5CF2864773") (chars "L1")
      = .error .invalidMac :=
  sendConnectDevice_spec.2.2 (chars "5CF2864773") (chars "L1")
    (by decide) (by decide)

/-! ## Scan Registry -/

/-- One discovered-peer record (`{mac, rssi, name}`); `rssi` is `none` when
`parseInt` produced `NaN`. -/
structure ScanRecord where
  mac : List Char
  rssi : Option Int
  name : List Char
deriving DecidableEq

/-- `addScanResult` (src/vibecue_v2.js:280-290): update the RSSI of the
first record with this `mac`, or push a full new record at the end. -/
def addScanResult (mac : List Char) (rssi : Option Int) (name : List Char) :
    List ScanRecord → List ScanRecord
  | [] => [⟨mac, rssi, name⟩]
  | r :: rest =>
    if r.mac = mac then ⟨r.mac, rssi, r.name⟩ :: rest
    else r :: addScanResult mac rssi name rest

theorem addScanResult_mem_mac (mac : List Char) (rssi : Option Int)
    (name x : List Char) (rs : List ScanRecord)
    (hx : x ∈ (addScanResult mac rssi name rs).map ScanRecord.mac) :
    x = mac ∨ x ∈ rs.map ScanRecord.mac := by
  induction rs with
  | nil =>
    simp only [addScanResult, List.map_cons, List.map_nil,
      List.mem_singleton] at hx
    exact Or.inl hx
  | cons r rest ih =>
    by_cases h : r.mac = mac
    · rw [addScanResult, if_pos h] at hx
      simp only [List.map_cons, List.mem_cons] at hx ⊢
      tauto
    · rw [addScanResult, if_neg h] at hx
      simp only [List.map_cons, List.mem_cons] at hx ⊢
      rcases hx with hx | hx
      · tauto
      · rcases ih hx with h1 | h1 <;> tauto

/-- C6: upserting into the scan registry updates the signal strength of an
existing record in place — identifiers, display names and record count are
untouched — appends a full record for a new identifier, and preserves
uniqueness of identifiers; starting from an empty registry, any sequence of
upserts therefore holds at most one record per identifier. -/
theorem addScanResult_upsert (mac : List Char) (rssi : Option Int)
    (name : List Char) (rs : List ScanRecord) :
    ((∃ r ∈ rs, r.mac = mac) →
      ((addScanResult mac rssi name rs).map ScanRecord.mac
          = rs.map ScanRecord.mac ∧
       (addScanResult mac rssi name rs).map ScanRecord.name
          = rs.map ScanRecord.name ∧
       (addScanResult mac rssi name rs).length = rs.length ∧
       ∃ r' ∈ addScanResult mac rssi name rs, r'.mac = mac ∧ r'.rssi = rssi)) ∧
    ((∀ r ∈ rs, r.mac ≠ mac) →
      addScanResult mac rssi name rs = rs ++ [⟨mac, rssi, name⟩]) ∧
    ((rs.map ScanRecord.mac).Nodup →
      ((addScanResult mac rssi name rs).map ScanRecord.mac).Nodup) := by
  refine ⟨?_, ?_, ?_⟩
  · intro hmem
    induction rs with
    | nil => rcases hmem with ⟨r, hr, _⟩; cases hr
    | cons r rest ih =>
      by_cases h : r.mac = mac
      · rw [addScanResult, if_pos h]
        refine ⟨by simp, by simp, by simp, ⟨r.mac, rssi, r.name⟩, ?_, h, rfl⟩
        exact List.mem_cons_self _ _
      · rcases hmem with ⟨r0, hr0, hr0mac⟩
        rcases List.mem_cons.mp hr0 with rfl | hr0'
        · exact absurd hr0mac h
        · rcases ih ⟨r0, hr0', hr0mac⟩ with ⟨hm, hn, hl, r', hr', hprops⟩
          rw [addScanResult, if_neg h]
          refine ⟨by simp [hm], by simp [hn], by simp [hl], r', ?_, hprops⟩
          exact List.mem_cons_of_mem _ hr'
  · intro hnone
    induction rs with
    | nil => rfl
    | cons r rest ih =>
      have h : r.mac ≠ mac := hnone r (List.mem_cons_self _ _)
      rw [addScanResult, if_neg h, List.cons_append]
      rw [ih fun r' hr' => hnone r' (List.mem_cons_of_mem _ hr')]
  · intro hnd
    induction rs with
    | nil => simp [addScanResult]
    | cons r rest ih =>
      simp only [List.map_cons, List.nodup_cons] at hnd
      by_cases h : r.mac = mac
      · rw [addScanResult, if_pos h]
        simp only [List.map_cons, List.nodup_cons]
        exact ⟨hnd.1, hnd.2⟩
      · rw [addScanResult, if_neg h]
        simp only [List.map_cons, List.nodup_cons]
        refine ⟨?_, ih hnd.2⟩
        intro hmem
        rcases addScanResult_mem_mac _ _ _ _ _ hmem with h1 | h1
        · exact h h1
        · exact hnd.1 h1

/-- Witness for C6: both upsert branches and the uniqueness invariant
evaluated on a concrete two-record registry. -/
theorem addScanResult_upsert_witness :
    ((addScanResult ['A'] (some (-70)) ['X']
        [⟨['A'], some (-50), ['N']⟩, ⟨['B'], some (-60), ['M']⟩]).map
          ScanRecord.mac
        = [['A'], ['B']] ∧
     (addScanResult ['A'] (some (-70)) ['X']
        [⟨['A'], some (-50), ['N']⟩, ⟨['B'], some (-60), ['M']⟩]).map
          ScanRecord.name
        = [['N'], ['M']] ∧
     (addScanResult ['A'] (some (-70)) ['X']
        [⟨['A'], some (-50), ['N']⟩, ⟨['B'], some (-60), ['M']⟩]).length = 2 ∧
     ∃ r' ∈ addScanResult ['A'] (some (-70)) ['X']
        [⟨['A'], some (-50), ['N']⟩, ⟨['B'], some (-60), ['M']⟩],
        r'.mac = ['A'] ∧ r'.rssi = some (-70)) ∧
    addScanResult ['C'] (some (-40)) ['Y']
        [⟨['A'], some (-50), ['N']⟩, ⟨['B'], some (-60), ['M']⟩]
      = [⟨['A'], some (-50), ['N']⟩, ⟨['B'], some (-60), ['M']⟩,
         ⟨['C'], some (-40), ['Y']⟩] := by
  constructor
  · exact (addScanResult_upsert ['A'] (some (-70)) ['X']
      [⟨['A'], some (-50), ['N']⟩, ⟨['B'], some (-60), ['M']⟩]).1
      ⟨⟨['A'], some (-50), ['N']⟩, by decide, by decide⟩
  · exact (addScanResult_upsert ['C'] (some (-40)) ['Y']
      [⟨['A'], some (-50), ['N']⟩, ⟨['B'], some (-60), ['M']⟩]).2.1
      (by decide)

/-! ## Response Classifier data model -/

/-- Severity/kind derived from a `#BLE:RAW:` payload. -/
inductive RawKind
  | ok
  | ready
  | multi
  | conn
  | disconn
  | other
deriving DecidableEq

/-- Evaluation summary rows (`evalDataRows` entries): 5-field foot data or
3-field back data; fields are `parseInt` results, `none` for `NaN`. -/
inductive EvalSummary
  | foot (lDist rDist lSpeed rSpeed asym : Option Int)
  | back (lTilt rTilt asym : Option Int)
deriving DecidableEq

/-- The discriminated inbound event: one variant per branch of the
classifier chain. -/
inductive InboundEvent
  | rawTransport (kind : RawKind) (raw : List Char)
  | scanFound (mac : List Char) (rssi : Option Int) (name : List Char)
  | duplicateIdentifier (mac existingLoc : List Char)
  | duplicateSlot (loc existingMac : List Char)
  | slotNotAllowed (loc devType : List Char)
  | deviceTypeFull (devType maxAllowed : List Char)
  | noDeviceTypeSet
  | slotCapacityExceeded (maxSlots : List Char)
  | evaluationStop (summary : EvalSummary)
  | evaluationTimeout
  | genericError (raw : List Char)
  | genericSuccess (raw : List Char)
  | unrecognized (raw : List Char)
deriving DecidableEq

def blePfx : List Char := chars "#BLE:RAW:"
def scanPfx : List Char := chars "#DM:SCAN:FOUND:"
def evalPfx : List Char := chars "#EVAL:STOP:STOP_OK:"
def manPfx : List Char := chars "#MAN:TIMEOUT"
def errPfx : List Char := chars "#ERR"
def hashPfx : List Char := chars "#"
def initTok : List Char := chars "INIT_OK"
def scanStartedTok : List Char := chars "SCAN_STARTED"
def dupMacTok : List Char := chars "DUP_MAC:"
def dupLocTok : List Char := chars "DUP_LOC:"
def locNotAllowedTok : List Char := chars "LOC_NOT_ALLOWED:"
def typeFullTok : List Char := chars "TYPE_FULL:"
def noTypeTok : List Char := chars "NO_TYPE"
def slotFullTok : List Char := chars "SLOT_FULL:"
def unknownStr : List Char := chars "unknown"
def qmarkStr : List Char := chars "?"
def eightStr : List Char := chars "8"

/-- Kind derivation for `#BLE:RAW:` responses (src/vibecue_v2.js:353-373). -/
def rawKind (r : List Char) : RawKind :=
  if r = chars "+OK" then .ok
  else if r = chars "+READY" then .ready
  else if r = chars "+MULTI" then .multi
  else if startsWithL (chars "+CONN") r then .conn
  else if startsWithL (chars "+DISCONN") r then .disconn
  else .other

/-- `updateDeviceStatus` (src/vibecue_v2.js:346-444): the if/else classifier
chain, returning the branch taken (as a typed event; `none` models the
empty `statusHTML` of a short `#DM:SCAN:FOUND:` line) together with the
updated scan registry (upsert on a scan hit, wholesale clear on
`INIT_OK`/`SCAN_STARTED`). -/
def updateDeviceStatus (message : List Char) (rs : List ScanRecord) :
    Option InboundEvent × List ScanRecord :=
  if startsWithL blePfx message then
    (some (.rawTransport (rawKind (message.drop blePfx.length)) message), rs)
  else if startsWithL scanPfx message then
    match splitOnChar ',' (message.drop scanPfx.length) with
    | mac :: name :: rssiStr :: _ =>
      (some (.scanFound mac (parseIntJS rssiStr) name),
       addScanResult mac (parseIntJS rssiStr) name rs)
    | _ => (none, rs)
  else if hasSub initTok message || hasSub scanStartedTok message then
    (some (.genericSuccess message), [])
  else if hasSub dupMacTok message then
    (some (.duplicateIdentifier ((splitOnChar ':' message).getD 2 unknownStr)
      ((splitOnChar ':' message).getD 3 unknownStr)), rs)
  else if hasSub dupLocTok message then
    (some (.duplicateSlot ((splitOnChar ':' message).getD 2 unknownStr)
      ((splitOnChar ':' message).getD 3 unknownStr)), rs)
  else if hasSub locNotAllowedTok message then
    (some (.slotNotAllowed ((splitOnChar ':' message).getD 2 unknownStr)
      ((splitOnChar ':' message).getD 3 unknownStr)), rs)
  else if hasSub typeFullTok message then
    (some (.deviceTypeFull ((splitOnChar ':' message).getD 2 qmarkStr)
      ((splitOnChar ':' message).getD 3 qmarkStr)), rs)
  else if hasSub noTypeTok message then
    (some .noDeviceTypeSet, rs)
  else if hasSub slotFullTok message then
    (some (.slotCapacityExceeded ((splitOnChar ':' message).getD 2 eightStr)), rs)
  else if startsWithL errPfx message then
    (some (.genericError message), rs)
  else if startsWithL hashPfx message then
    (some (.genericSuccess message), rs)
  else
    (some (.unrecognized message), rs)

/-- A JavaScript regex LineTerminator (what `.` does not match). -/
def isLineTerm (c : Char) : Bool :=
  c = '\n' || c = '\r' || c.toNat = 0x2028 || c.toNat = 0x2029

/-- The regex search `message.match(/#EVAL:STOP:STOP_OK:(.+)/)`: the first
position where the literal prefix is followed by at least one
non-line-terminator character, returning the greedy `(.+)` capture. -/
def findEvalStopData : List Char → Option (List Char)
  | [] => none
  | c :: rest =>
    if startsWithL evalPfx (c :: rest) then
      let data := ((c :: rest).drop evalPfx.length).takeWhile fun ch => !isLineTerm ch
      if data.isEmpty then findEvalStopData rest else some data
    else findEvalStopData rest

/-- `handleEvalStopData` (src/vibecue_v2.js:451-490): capture the data part,
split on `,`, `parseInt` each trimmed field; exactly 5 fields make a foot
summary, exactly 3 a back summary, anything else is dropped with a console
warning (`none`). -/
def handleEvalStopData (message : List Char) : Option EvalSummary :=
  match findEvalStopData message with
  | none => none
  | some data =>
    match (splitOnChar ',' data).map (fun s => parseIntJS (jsTrim s)) with
    | [a, b, c, d, e] => some (.foot a b c d e)
    | [a, b, c] => some (.back a b c)
    | _ => none

/-- The typed event a nonempty line produces through `handleNotification`:
the appended evaluation summary when the eval-stop handler fires, the
timeout log for `#MAN:TIMEOUT` lines, otherwise the branch taken by
`updateDeviceStatus`. -/
def classify (line : List Char) : Option InboundEvent :=
  if startsWithL evalPfx line then
    match handleEvalStopData line with
    | some s => some (.evaluationStop s)
    | none => (updateDeviceStatus line []).1
  else if startsWithL manPfx line then some .evaluationTimeout
  else (updateDeviceStatus line []).1

/-- The mutable session state touched by the receive path: the scan
registry (`scanResults`) and the evaluation history (`evalDataRows`). -/
structure SessionSt where
  scanResults : List ScanRecord
  evalDataRows : List EvalSummary
deriving DecidableEq

/-- The receive path after decoding (`handleNotification` body from the
payload guard on): empty payloads are dropped as parse failures, otherwise
`updateDeviceStatus` runs and `handleEvalStopData` appends to the history
for `#EVAL:STOP:STOP_OK:` lines. -/
def processLine (payload : List Char) (st : SessionSt) :
    SessionSt × Option InboundEvent :=
  if payload.isEmpty then (st, none)
  else
    (⟨(updateDeviceStatus payload st.scanResults).2,
      if startsWithL evalPfx payload then
        match handleEvalStopData payload with
        | some s => st.evalDataRows ++ [s]
        | none => st.evalDataRows
      else st.evalDataRows⟩,
     classify payload)

/-- `handleNotification` (src/vibecue_v2.js:152-179): decode, drop falsy
payloads, then run the classifier chain and the eval-stop handler. -/
def handleNotification (bytes : List Nat) (st : SessionSt) :
    SessionSt × Option InboundEvent :=
  match parsePacket bytes with
  | none => (st, none)
  | some payload => processLine payload st

/-! ## Classifier lemmas -/

theorem startsWithL_iff (p l : List Char) :
    startsWithL p l = true ↔ ∃ t, l = p ++ t := by
  induction p generalizing l with
  | nil => simp [startsWithL]
  | cons a ps ih =>
    cases l with
    | nil => simp [startsWithL]
    | cons c cs =>
      simp only [startsWithL, Bool.and_eq_true, beq_iff_eq]
      constructor
      · rintro ⟨rfl, h⟩
        rcases (ih cs).mp h with ⟨t, rfl⟩
        exact ⟨t, rfl⟩
      · rintro ⟨t, ht⟩
        injection ht with h1 h2
        subst h1
        exact ⟨rfl, (ih cs).mpr ⟨t, h2⟩⟩

theorem startsWithL_ne_nil {p l : List Char} (h : startsWithL p l = true)
    (hp : p ≠ []) : l ≠ [] := by
  rcases (startsWithL_iff _ _).mp h with ⟨t, rfl⟩
  intro hl
  exact hp (List.append_eq_nil.mp hl).1

theorem hasSub_ne_nil {pat l : List Char} (h : hasSub pat l = true)
    (hp : pat ≠ []) : l ≠ [] := by
  intro hl
  subst hl
  cases pat with
  | nil => exact hp rfl
  | cons c cs => simp [hasSub] at h

theorem isEmpty_false_of_ne_nil {l : List Char} (h : l ≠ []) :
    l.isEmpty = false := by
  cases l with
  | nil => exact absurd rfl h
  | cons a as => rfl

theorem not_blePfx_of_scanPfx {l : List Char}
    (h : startsWithL scanPfx l = true) : startsWithL blePfx l = false := by
  rcases (startsWithL_iff _ _).mp h with ⟨t, rfl⟩
  rfl

theorem not_evalPfx_of_scanPfx {l : List Char}
    (h : startsWithL scanPfx l = true) : startsWithL evalPfx l = false := by
  rcases (startsWithL_iff _ _).mp h with ⟨t, rfl⟩
  rfl

theorem not_manPfx_of_scanPfx {l : List Char}
    (h : startsWithL scanPfx l = true) : startsWithL manPfx l = false := by
  rcases (startsWithL_iff _ _).mp h with ⟨t, rfl⟩
  rfl

theorem not_scanPfx_of_evalPfx {l : List Char}
    (h : startsWithL evalPfx l = true) : startsWithL scanPfx l = false := by
  rcases (startsWithL_iff _ _).mp h with ⟨t, rfl⟩
  rfl

theorem not_scanPfx_of_manPfx {l : List Char}
    (h : startsWithL manPfx l = true) : startsWithL scanPfx l = false := by
  rcases (startsWithL_iff _ _).mp h with ⟨t, rfl⟩
  rfl

theorem hashPfx_of_evalPfx {l : List Char}
    (h : startsWithL evalPfx l = true) : startsWithL hashPfx l = true := by
  rcases (startsWithL_iff _ _).mp h with ⟨t, rfl⟩
  rfl

theorem updateDeviceStatus_scanPfx (message : List Char) (rs : List ScanRecord)
    (h : startsWithL scanPfx message = true) :
    updateDeviceStatus message rs =
      match splitOnChar ',' (message.drop scanPfx.length) with
      | mac :: name :: rssiStr :: _ =>
        (some (.scanFound mac (parseIntJS rssiStr) name),
         addScanResult mac (parseIntJS rssiStr) name rs)
      | _ => (none, rs) := by
  have hble : ¬ (startsWithL blePfx message = true) := by
    simp [not_blePfx_of_scanPfx h]
  unfold updateDeviceStatus
  rw [if_neg hble, if_pos h]

theorem updateDeviceStatus_scan_short (message : List Char)
    (rs : List ScanRecord) (hpre : startsWithL scanPfx message = true)
    (hlen : (splitOnChar ',' (message.drop scanPfx.length)).length < 3) :
    updateDeviceStatus message rs = (none, rs) := by
  rw [updateDeviceStatus_scanPfx message rs hpre]
  rcases hp : splitOnChar ',' (message.drop scanPfx.length) with
    _ | ⟨a, _ | ⟨b, _ | ⟨c, rest⟩⟩⟩
  · rfl
  · rfl
  · rfl
  · rw [hp] at hlen
    simp only [List.length_cons] at hlen
    omega

theorem updateDeviceStatus_fst_shape (message : List Char)
    (rs : List ScanRecord) (h : startsWithL scanPfx message = false) :
    ∃ e, (updateDeviceStatus message rs).1 = some e ∧
      ∀ r, e = .unrecognized r → startsWithL hashPfx message = false := by
  unfold updateDeviceStatus
  by_cases h1 : startsWithL blePfx message = true
  · rw [if_pos h1]
    exact ⟨_, rfl, fun r hr => nomatch hr⟩
  · rw [if_neg h1, if_neg (show ¬ (startsWithL scanPfx message = true) by simp [h])]
    by_cases h3 : (hasSub initTok message || hasSub scanStartedTok message) = true
    · rw [if_pos h3]
      exact ⟨_, rfl, fun r hr => nomatch hr⟩
    · rw [if_neg h3]
      by_cases h4 : hasSub dupMacTok message = true
      · rw [if_pos h4]
        exact ⟨_, rfl, fun r hr => nomatch hr⟩
      · rw [if_neg h4]
        by_cases h5 : hasSub dupLocTok message = true
        · rw [if_pos h5]
          exact ⟨_, rfl, fun r hr => nomatch hr⟩
        · rw [if_neg h5]
          by_cases h6 : hasSub locNotAllowedTok message = true
          · rw [if_pos h6]
            exact ⟨_, rfl, fun r hr => nomatch hr⟩
          · rw [if_neg h6]
            by_cases h7 : hasSub typeFullTok message = true
            · rw [if_pos h7]
              exact ⟨_, rfl, fun r hr => nomatch hr⟩
            · rw [if_neg h7]
              by_cases h8 : hasSub noTypeTok message = true
              · rw [if_pos h8]
                exact ⟨_, rfl, fun r hr => nomatch hr⟩
              · rw [if_neg h8]
                by_cases h9 : hasSub slotFullTok message = true
                · rw [if_pos h9]
                  exact ⟨_, rfl, fun r hr => nomatch hr⟩
                · rw [if_neg h9]
                  by_cases h10 : startsWithL errPfx message = true
                  · rw [if_pos h10]
                    exact ⟨_, rfl, fun r hr => nomatch hr⟩
                  · rw [if_neg h10]
                    by_cases h11 : startsWithL hashPfx message = true
                    · rw [if_pos h11]
                      exact ⟨_, rfl, fun r hr => nomatch hr⟩
                    · rw [if_neg h11]
                      exact ⟨_, rfl, fun r hr => by simpa using h11⟩

theorem updateDeviceStatus_fst_isSome (message : List Char)
    (rs : List ScanRecord) (h : startsWithL scanPfx message = false) :
    ∃ e, (updateDeviceStatus message rs).1 = some e := by
  rcases updateDeviceStatus_fst_shape message rs h with ⟨e, he, _⟩
  exact ⟨e, he⟩

theorem updateDeviceStatus_fst_eq_none_iff (message : List Char)
    (rs : List ScanRecord) :
    (updateDeviceStatus message rs).1 = none ↔
      startsWithL scanPfx message = true ∧
      (splitOnChar ',' (message.drop scanPfx.length)).length < 3 := by
  by_cases h : startsWithL scanPfx message = true
  · rw [updateDeviceStatus_scanPfx message rs h]
    rcases hp : splitOnChar ',' (message.drop scanPfx.length) with
      _ | ⟨a, _ | ⟨b, _ | ⟨c, rest⟩⟩⟩
    · simp [h, hp]
    · simp [h, hp]
    · simp [h, hp]
    · simp [h, hp]
  · constructor
    · intro hnone
      rcases updateDeviceStatus_fst_isSome message rs (by simpa using h) with
        ⟨e, he⟩
      rw [he] at hnone
      cases hnone
    · rintro ⟨h1, _⟩
      exact absurd h1 h

theorem updateDeviceStatus_fst_ne_unrecognized (message : List Char)
    (rs : List ScanRecord) (hscan : startsWithL scanPfx message = false)
    (hhash : startsWithL hashPfx message = true) :
    ∀ r, (updateDeviceStatus message rs).1 ≠ some (.unrecognized r) := by
  intro r hcon
  rcases updateDeviceStatus_fst_shape message rs hscan with ⟨e, he, hu⟩
  rw [he] at hcon
  injection hcon with h'
  simp [hu r h'] at hhash

theorem updateDeviceStatus_initOk (message : List Char) (rs : List ScanRecord)
    (hin : (hasSub initTok message || hasSub scanStartedTok message) = true)
    (hble : startsWithL blePfx message = false)
    (hscan : startsWithL scanPfx message = false) :
    updateDeviceStatus message rs = (some (.genericSuccess message), []) := by
  have hble' : ¬ (startsWithL blePfx message = true) := by simp [hble]
  have hscan' : ¬ (startsWithL scanPfx message = true) := by simp [hscan]
  unfold updateDeviceStatus
  rw [if_neg hble', if_neg hscan', if_pos hin]

theorem handleEvalStopData_eq (line d : List Char)
    (hd : findEvalStopData line = some d) :
    handleEvalStopData line =
      match (splitOnChar ',' d).map (fun s => parseIntJS (jsTrim s)) with
      | [a, b, c, d2, e] => some (.foot a b c d2 e)
      | [a, b, c] => some (.back a b c)
      | _ => none := by
  unfold handleEvalStopData
  rw [hd]

theorem classify_eq_none_iff (line : List Char) :
    classify line = none ↔
      startsWithL scanPfx line = true ∧
      (splitOnChar ',' (line.drop scanPfx.length)).length < 3 := by
  unfold classify
  by_cases heval : startsWithL evalPfx line = true
  · rw [if_pos heval]
    have hscan := not_scanPfx_of_evalPfx heval
    rcases hs : handleEvalStopData line with _ | s
    · show (updateDeviceStatus line []).1 = none ↔
        startsWithL scanPfx line = true ∧
        (splitOnChar ',' (line.drop scanPfx.length)).length < 3
      rw [updateDeviceStatus_fst_eq_none_iff]
    · simp [hscan]
  · rw [if_neg heval]
    by_cases hman : startsWithL manPfx line = true
    · rw [if_pos hman]
      have hscan := not_scanPfx_of_manPfx hman
      simp [hscan]
    · rw [if_neg hman]
      exact updateDeviceStatus_fst_eq_none_iff line []

theorem classify_scan_cons (line mac name rssiStr : List Char)
    (rest : List (List Char)) (hpre : startsWithL scanPfx line = true)
    (hparts : splitOnChar ',' (line.drop scanPfx.length)
      = mac :: name :: rssiStr :: rest) :
    classify line = some (.scanFound mac (parseIntJS rssiStr) name) := by
  have heval : ¬ (startsWithL evalPfx line = true) := by
    simp [not_evalPfx_of_scanPfx hpre]
  have hman : ¬ (startsWithL manPfx line = true) := by
    simp [not_manPfx_of_scanPfx hpre]
  unfold classify
  rw [if_neg heval, if_neg hman, updateDeviceStatus_scanPfx line [] hpre,
    hparts]

theorem handleEvalStopData_none_of_noCapture (line : List Char)
    (hd : findEvalStopData line = none) : handleEvalStopData line = none := by
  unfold handleEvalStopData
  rw [hd]

theorem handleEvalStopData_foot (line d : List Char) (a b c d2 e : Option Int)
    (hd : findEvalStopData line = some d)
    (hparts : (splitOnChar ',' d).map (fun s => parseIntJS (jsTrim s))
      = [a, b, c, d2, e]) :
    handleEvalStopData line = some (.foot a b c d2 e) := by
  rw [handleEvalStopData_eq line d hd, hparts]

theorem handleEvalStopData_back (line d : List Char) (a b c : Option Int)
    (hd : findEvalStopData line = some d)
    (hparts : (splitOnChar ',' d).map (fun s => parseIntJS (jsTrim s))
      = [a, b, c]) :
    handleEvalStopData line = some (.back a b c) := by
  rw [handleEvalStopData_eq line d hd, hparts]

theorem handleEvalStopData_none_of_arity (line d : List Char)
    (hd : findEvalStopData line = some d)
    (h5 : ((splitOnChar ',' d).map (fun s => parseIntJS (jsTrim s))).length ≠ 5)
    (h3 : ((splitOnChar ',' d).map (fun s => parseIntJS (jsTrim s))).length ≠ 3) :
    handleEvalStopData line = none := by
  rw [handleEvalStopData_eq line d hd]
  rcases hp : (splitOnChar ',' d).map (fun s => parseIntJS (jsTrim s)) with
    _ | ⟨a, _ | ⟨b, _ | ⟨c, _ | ⟨d2, _ | ⟨e, _ | ⟨f, fs⟩⟩⟩⟩⟩⟩
  · rfl
  · rfl
  · rfl
  · exact absurd (by rw [hp]; rfl : ((splitOnChar ',' d).map
      (fun s => parseIntJS (jsTrim s))).length = 3) h3
  · rfl
  · exact absurd (by rw [hp]; rfl : ((splitOnChar ',' d).map
      (fun s => parseIntJS (jsTrim s))).length = 5) h5
  · rfl

theorem processLine_evalRows_of_none (line : List Char) (st : SessionSt)
    (hpre : startsWithL evalPfx line = true)
    (hnone : handleEvalStopData line = none) :
    (processLine line st).1.evalDataRows = st.evalDataRows := by
  have hne : line ≠ [] := startsWithL_ne_nil hpre (by decide)
  have hemp : ¬ (line.isEmpty = true) := by
    simp [isEmpty_false_of_ne_nil hne]
  unfold processLine
  rw [if_neg hemp, if_pos hpre, hnone]

theorem processLine_evalRows_of_some (line : List Char) (st : SessionSt)
    (s : EvalSummary) (hpre : startsWithL evalPfx line = true)
    (hs : handleEvalStopData line = some s) :
    (processLine line st).1.evalDataRows = st.evalDataRows ++ [s] := by
  have hne : line ≠ [] := startsWithL_ne_nil hpre (by decide)
  have hemp : ¬ (line.isEmpty = true) := by
    simp [isEmpty_false_of_ne_nil hne]
  unfold processLine
  rw [if_neg hemp, if_pos hpre, hs]

/-! ## Claim theorems for the receive path -/

/-- C4 counterexample: a `#DM:SCAN:FOUND:` line with a malformed rssi is not
classified `Unrecognized` — it yields `ScanFound` with a `NaN` strength and
a record is inserted into the scan registry. -/
theorem scan_malformed_counterexample :
    classify (chars "#DM:SCAN:FOUND:AABBCCDDEEFF,Sensor1,zz")
      = some (.scanFound (chars "AABBCCDDEEFF") none (chars "Sensor1")) ∧
    (processLine (chars "#DM:SCAN:FOUND:AABBCCDDEEFF,Sensor1,zz")
        ⟨[], []⟩).1.scanResults
      = [⟨chars "AABBCCDDEEFF", none, chars "Sensor1"⟩] := by
  exact ⟨by decide, by decide⟩

/-- C4 (amended): a well-shaped `#DM:SCAN:FOUND:<mac>,<name>,<rssi>` line
whose rssi does not parse still classifies as `ScanFound` with a `NaN`
(`none`) signal strength, upserts a record carrying that strength, does not
crash, and leaves the evaluation history unchanged. -/
theorem scan_malformed_rssi (line mac name rssiStr : List Char)
    (rest : List (List Char)) (st : SessionSt)
    (hpre : startsWithL scanPfx line = true)
    (hparts : splitOnChar ',' (line.drop scanPfx.length)
      = mac :: name :: rssiStr :: rest)
    (hnan : parseIntJS rssiStr = none) :
    classify line = some (.scanFound mac none name) ∧
    (processLine line st).1.scanResults
      = addScanResult mac none name st.scanResults ∧
    (processLine line st).1.evalDataRows = st.evalDataRows := by
  have hne : line ≠ [] := startsWithL_ne_nil hpre (by decide)
  have hemp : ¬ (line.isEmpty = true) := by
    simp [isEmpty_false_of_ne_nil hne]
  have heval : ¬ (startsWithL evalPfx line = true) := by
    simp [not_evalPfx_of_scanPfx hpre]
  have hcl := classify_scan_cons line mac name rssiStr rest hpre hparts
  rw [hnan] at hcl
  refine ⟨hcl, ?_, ?_⟩
  · unfold processLine
    rw [if_neg hemp, updateDeviceStatus_scanPfx line st.scanResults hpre,
      hparts]
    show addScanResult mac (parseIntJS rssiStr) name st.scanResults
      = addScanResult mac none name st.scanResults
    rw [hnan]
  · unfold processLine
    rw [if_neg hemp, if_neg heval]

/-- Witness for C4 at a concrete malformed-rssi line. -/
theorem scan_malformed_rssi_witness :
    classify (chars "#DM:SCAN:FOUND:AA,BB,xx")
      = some (.scanFound (chars "AA") none (chars "BB")) ∧
    (processLine (chars "#DM:SCAN:FOUND:AA,BB,xx") ⟨[], []⟩).1.scanResults
      = addScanResult (chars "AA") none (chars "BB")
          (SessionSt.scanResults ⟨[], []⟩) ∧
    (processLine (chars "#DM:SCAN:FOUND:AA,BB,xx") ⟨[], []⟩).1.evalDataRows
      = SessionSt.evalDataRows ⟨[], []⟩ :=
  scan_malformed_rssi (chars "#DM:SCAN:FOUND:AA,BB,xx") (chars "AA")
    (chars "BB") (chars "xx") [] ⟨[], []⟩ (by decide) (by decide) (by decide)

/-- C5 counterexample: a 4-field `#EVAL:STOP:STOP_OK:` line classifies as
`GenericSuccess` (it is a plain `#` line), not `Unrecognized`, and nothing
is appended to the evaluation history. -/
theorem evalStop_four_counterexample :
    classify (chars "#EVAL:STOP:STOP_OK:1,2,3,4")
      = some (.genericSuccess (chars "#EVAL:STOP:STOP_OK:1,2,3,4")) ∧
    (processLine (chars "#EVAL:STOP:STOP_OK:1,2,3,4") ⟨[], []⟩).1.evalDataRows
      = [] := by
  exact ⟨by decide, by decide⟩

/-- C5 (amended): for an `#EVAL:STOP:STOP_OK:` line, exactly 5 parsed fields
append (and classify as) a foot summary, exactly 3 a back summary; any other
field count appends nothing and classification falls through to the
`updateDeviceStatus` branch, which is never `Unrecognized` for these `#`
lines. -/
theorem evalStop_arity (line : List Char) (st : SessionSt)
    (hpre : startsWithL evalPfx line = true) :
    (∀ s, handleEvalStopData line = some s →
        (processLine line st).1.evalDataRows = st.evalDataRows ++ [s] ∧
        classify line = some (.evaluationStop s)) ∧
    (handleEvalStopData line = none →
        (processLine line st).1.evalDataRows = st.evalDataRows ∧
        classify line = (updateDeviceStatus line []).1 ∧
        ∀ r, classify line ≠ some (.unrecognized r)) ∧
    (∀ d a b c d2 e, findEvalStopData line = some d →
        (splitOnChar ',' d).map (fun s => parseIntJS (jsTrim s))
          = [a, b, c, d2, e] →
        handleEvalStopData line = some (.foot a b c d2 e)) ∧
    (∀ d a b c, findEvalStopData line = some d →
        (splitOnChar ',' d).map (fun s => parseIntJS (jsTrim s)) = [a, b, c] →
        handleEvalStopData line = some (.back a b c)) ∧
    (∀ d, findEvalStopData line = some d →
        ((splitOnChar ',' d).map (fun s => parseIntJS (jsTrim s))).length ≠ 5 →
        ((splitOnChar ',' d).map (fun s => parseIntJS (jsTrim s))).length ≠ 3 →
        handleEvalStopData line = none) := by
  refine ⟨?_, ?_, ?_, ?_, ?_⟩
  · intro s hs
    constructor
    · exact processLine_evalRows_of_some line st s hpre hs
    · unfold classify
      rw [if_pos hpre, hs]
  · intro hnone
    refine ⟨processLine_evalRows_of_none line st hpre hnone, ?_, ?_⟩
    · unfold classify
      rw [if_pos hpre, hnone]
    · intro r
      unfold classify
      rw [if_pos hpre, hnone]
      exact updateDeviceStatus_fst_ne_unrecognized line []
        (not_scanPfx_of_evalPfx hpre) (hashPfx_of_evalPfx hpre) r
  · intro d a b c d2 e hd hparts
    exact handleEvalStopData_foot line d a b c d2 e hd hparts
  · intro d a b c hd hparts
    exact handleEvalStopData_back line d a b c hd hparts
  · intro d hd h5 h3
    exact handleEvalStopData_none_of_arity line d hd h5 h3

/-- Witness for C5 at the concrete 5-field line from the spec. -/
theorem evalStop_arity_witness :
    handleEvalStopData (chars "#EVAL:STOP:STOP_OK:120,118,45,47,3")
      = some (.foot (some 120) (some 118) (some 45) (some 47) (some 3)) :=
  (evalStop_arity (chars "#EVAL:STOP:STOP_OK:120,118,45,47,3") ⟨[], []⟩
      (by decide)).2.2.1
    (chars "120,118,45,47,3") (some 120) (some 118) (some 45) (some 47)
    (some 3) (by decide) (by decide)

/-- C7 counterexample: a `#DM:SCAN:FOUND:` line with a single field produces
no event at all, so classification does not produce exactly one variant for
every line. -/
theorem classify_short_scan_counterexample :
    classify (chars "#DM:SCAN:FOUND:x") = none := by decide

/-- C7 (amended): classification is a total function and produces no event
exactly on `#DM:SCAN:FOUND:` lines whose remainder splits into fewer than 3
comma-separated fields; every other line yields exactly one variant, with
`Unrecognized` as the fallback. -/
theorem classify_none_characterization (line : List Char) :
    classify line = none ↔
      startsWithL scanPfx line = true ∧
      (splitOnChar ',' (line.drop scanPfx.length)).length < 3 :=
  classify_eq_none_iff line

/-- Witness for C7: a line outside the degenerate scan shape produces an
event. -/
theorem classify_none_characterization_witness :
    ¬ (classify (chars "hello") = none) := fun h =>
  absurd ((classify_none_characterization (chars "hello")).mp h) (by decide)

/-- C8 counterexample: `#EVAL:STOP:STOP_OK:INIT_OK,2,3` contains `INIT_OK`
and matches no earlier rule, and it does clear the scan registry with a
success display — but it also appends a back summary to the evaluation
history, which the claim says is left unchanged. -/
theorem initOk_eval_counterexample :
    hasSub initTok (chars "#EVAL:STOP:STOP_OK:INIT_OK,2,3") = true ∧
    startsWithL blePfx (chars "#EVAL:STOP:STOP_OK:INIT_OK,2,3") = false ∧
    startsWithL scanPfx (chars "#EVAL:STOP:STOP_OK:INIT_OK,2,3") = false ∧
    processLine (chars "#EVAL:STOP:STOP_OK:INIT_OK,2,3")
        ⟨[⟨['A'], some 1, ['B']⟩], []⟩
      = (⟨[], [.back none (some 2) (some 3)]⟩,
         some (.evaluationStop (.back none (some 2) (some 3)))) := by
  exact ⟨by decide, by decide, by decide, by decide⟩

/-- C8 (amended): a line containing `INIT_OK` or `SCAN_STARTED` that matches
no earlier classifier branch gets the `GenericSuccess` status branch and
clears the scan registry wholesale.  The evaluation history is unchanged
unless the line also starts with `#EVAL:STOP:STOP_OK:` and its regex
capture succeeds with exactly 5 or exactly 3 parsed fields, in which case
the parsed summary is appended; in every other case — no
`#EVAL:STOP:STOP_OK:` prefix, failed capture, or any other field count —
the history stays as it was.  The merged classification is `GenericSuccess`
provided the line is not an eval-stop or timeout line. -/
theorem initOk_clears_scan (line : List Char) (st : SessionSt)
    (hin : (hasSub initTok line || hasSub scanStartedTok line) = true)
    (hble : startsWithL blePfx line = false)
    (hscan : startsWithL scanPfx line = false) :
    (updateDeviceStatus line st.scanResults).1
      = some (.genericSuccess line) ∧
    (processLine line st).1.scanResults = [] ∧
    (startsWithL evalPfx line = false →
      (processLine line st).1.evalDataRows = st.evalDataRows ∧
      (startsWithL manPfx line = false →
        classify line = some (.genericSuccess line))) ∧
    (startsWithL evalPfx line = true →
      (findEvalStopData line = none →
        (processLine line st).1.evalDataRows = st.evalDataRows) ∧
      (∀ d, findEvalStopData line = some d →
        (∀ a b c d2 e,
          (splitOnChar ',' d).map (fun s => parseIntJS (jsTrim s))
            = [a, b, c, d2, e] →
          (processLine line st).1.evalDataRows
            = st.evalDataRows ++ [.foot a b c d2 e]) ∧
        (∀ a b c,
          (splitOnChar ',' d).map (fun s => parseIntJS (jsTrim s))
            = [a, b, c] →
          (processLine line st).1.evalDataRows
            = st.evalDataRows ++ [.back a b c]) ∧
        (((splitOnChar ',' d).map (fun s => parseIntJS (jsTrim s))).length ≠ 5 →
         ((splitOnChar ',' d).map (fun s => parseIntJS (jsTrim s))).length ≠ 3 →
          (processLine line st).1.evalDataRows = st.evalDataRows))) := by
  have hupd := updateDeviceStatus_initOk line st.scanResults hin hble hscan
  have hne : line ≠ [] := by
    rcases (by simpa using hin :
        hasSub initTok line = true ∨ hasSub scanStartedTok line = true) with
      h | h
    · exact hasSub_ne_nil h (by decide)
    · exact hasSub_ne_nil h (by decide)
  have hemp : ¬ (line.isEmpty = true) := by
    simp [isEmpty_false_of_ne_nil hne]
  refine ⟨by rw [hupd], ?_, ?_, ?_⟩
  · unfold processLine
    rw [if_neg hemp, hupd]
  · intro heval
    constructor
    · unfold processLine
      rw [if_neg hemp, if_neg (show ¬ (startsWithL evalPfx line = true)
        by simp [heval])]
    · intro hman
      unfold classify
      rw [if_neg (show ¬ (startsWithL evalPfx line = true) by simp [heval]),
        if_neg (show ¬ (startsWithL manPfx line = true) by simp [hman]),
        updateDeviceStatus_initOk line [] hin hble hscan]
  · intro heval
    refine ⟨?_, ?_⟩
    · intro hdn
      exact processLine_evalRows_of_none line st heval
        (handleEvalStopData_none_of_noCapture line hdn)
    · intro d hd
      refine ⟨?_, ?_, ?_⟩
      · intro a b c d2 e hparts
        exact processLine_evalRows_of_some line st _ heval
          (handleEvalStopData_foot line d a b c d2 e hd hparts)
      · intro a b c hparts
        exact processLine_evalRows_of_some line st _ heval
          (handleEvalStopData_back line d a b c hd hparts)
      · intro h5 h3
        exact processLine_evalRows_of_none line st heval
          (handleEvalStopData_none_of_arity line d hd h5 h3)

/-- Witness for C8 at the concrete line `#DM:INIT_OK` over a populated
registry. -/
theorem initOk_clears_scan_witness :
    (updateDeviceStatus (chars "#DM:INIT_OK")
        (SessionSt.scanResults ⟨[⟨['A'], some 1, ['B']⟩], []⟩)).1
      = some (.genericSuccess (chars "#DM:INIT_OK")) ∧
    (processLine (chars "#DM:INIT_OK")
        ⟨[⟨['A'], some 1, ['B']⟩], []⟩).1.scanResults = [] ∧
    (startsWithL evalPfx (chars "#DM:INIT_OK") = false →
      (processLine (chars "#DM:INIT_OK")
          ⟨[⟨['A'], some 1, ['B']⟩], []⟩).1.evalDataRows
        = SessionSt.evalDataRows ⟨[⟨['A'], some 1, ['B']⟩], []⟩ ∧
      (startsWithL manPfx (chars "#DM:INIT_OK") = false →
        classify (chars "#DM:INIT_OK")
          = some (.genericSuccess (chars "#DM:INIT_OK")))) ∧
    (startsWithL evalPfx (chars "#DM:INIT_OK") = true →
      (findEvalStopData (chars "#DM:INIT_OK") = none →
        (processLine (chars "#DM:INIT_OK")
            ⟨[⟨['A'], some 1, ['B']⟩], []⟩).1.evalDataRows
          = SessionSt.evalDataRows ⟨[⟨['A'], some 1, ['B']⟩], []⟩) ∧
      (∀ d, findEvalStopData (chars "#DM:INIT_OK") = some d →
        (∀ a b c d2 e,
          (splitOnChar ',' d).map (fun s => parseIntJS (jsTrim s))
            = [a, b, c, d2, e] →
          (processLine (chars "#DM:INIT_OK")
              ⟨[⟨['A'], some 1, ['B']⟩], []⟩).1.evalDataRows
            = SessionSt.evalDataRows ⟨[⟨['A'], some 1, ['B']⟩], []⟩
                ++ [.foot a b c d2 e]) ∧
        (∀ a b c,
          (splitOnChar ',' d).map (fun s => parseIntJS (jsTrim s))
            = [a, b, c] →
          (processLine (chars "#DM:INIT_OK")
              ⟨[⟨['A'], some 1, ['B']⟩], []⟩).1.evalDataRows
            = SessionSt.evalDataRows ⟨[⟨['A'], some 1, ['B']⟩], []⟩
                ++ [.back a b c]) ∧
        (((splitOnChar ',' d).map (fun s => parseIntJS (jsTrim s))).length ≠ 5 →
         ((splitOnChar ',' d).map (fun s => parseIntJS (jsTrim s))).length ≠ 3 →
          (processLine (chars "#DM:INIT_OK")
              ⟨[⟨['A'], some 1, ['B']⟩], []⟩).1.evalDataRows
            = SessionSt.evalDataRows ⟨[⟨['A'], some 1, ['B']⟩], []⟩))) :=
  initOk_clears_scan (chars "#DM:INIT_OK") ⟨[⟨['A'], some 1, ['B']⟩], []⟩
    (by decide) (by decide) (by decide)

/-- C9: a `#DM:SCAN:FOUND:` line whose remainder has fewer than 3
comma-separated fields produces no event at all and leaves both the scan
registry and the evaluation history untouched. -/
theorem scanShort_no_event (line : List Char) (st : SessionSt)
    (hpre : startsWithL scanPfx line = true)
    (hshort : (splitOnChar ',' (line.drop scanPfx.length)).length < 3) :
    classify line = none ∧ processLine line st = (st, none) := by
  have hnone := (classify_eq_none_iff line).mpr ⟨hpre, hshort⟩
  refine ⟨hnone, ?_⟩
  have hne : line ≠ [] := startsWithL_ne_nil hpre (by decide)
  have hemp : ¬ (line.isEmpty = true) := by
    simp [isEmpty_false_of_ne_nil hne]
  unfold processLine
  rw [if_neg hemp, updateDeviceStatus_scan_short line st.scanResults hpre
    hshort, if_neg (show ¬ (startsWithL evalPfx line = true)
      by simp [not_evalPfx_of_scanPfx hpre]), hnone]

/-- Witness for C9 at a concrete one-field scan line. -/
theorem scanShort_no_event_witness :
    classify (chars "#DM:SCAN:FOUND:onlyone") = none ∧
    processLine (chars "#DM:SCAN:FOUND:onlyone")
        ⟨[⟨['A'], some 1, ['B']⟩], []⟩
      = (⟨[⟨['A'], some 1, ['B']⟩], []⟩, none) :=
  scanShort_no_event (chars "#DM:SCAN:FOUND:onlyone")
    ⟨[⟨['A'], some 1, ['B']⟩], []⟩ (by decide) (by decide)

theorem jsTrim_eq_nil_of_ws {ws : List Char}
    (h : ∀ c ∈ ws, isJsWs c = true) : jsTrim ws = [] := by
  unfold jsTrim trimLeft trimRight
  have h1 : ws.reverse.dropWhile isJsWs = [] := by
    rw [List.dropWhile_eq_nil_iff]
    intro c hc
    exact h c (List.mem_reverse.mp hc)
  rw [h1]
  rfl

/-- C10: a buffer decoding to whitespace only (the empty buffer included)
parses to the empty string and the receive path drops it as a parse
failure: no event is produced and no state is mutated. -/
theorem whitespace_buffer_no_op (bs : List Nat) (st : SessionSt)
    (ws : List Char) (hdec : utf8Decode bs = some ws)
    (hws : ∀ c ∈ ws, isJsWs c = true) :
    parsePacket bs = some [] ∧ handleNotification bs st = (st, none) := by
  have hp : parsePacket bs = some [] := by
    rw [parsePacket, hdec, Option.map_some', jsTrim_eq_nil_of_ws hws]
  refine ⟨hp, ?_⟩
  unfold handleNotification
  rw [hp]
  rfl

/-- Witness for C10 at the buffer `" \r\n"`. -/
theorem whitespace_buffer_no_op_witness :
    parsePacket [32, 13, 10] = some [] ∧
    handleNotification [32, 13, 10] ⟨[⟨['A'], some 1, ['B']⟩], []⟩
      = (⟨[⟨['A'], some 1, ['B']⟩], []⟩, none) :=
  whitespace_buffer_no_op [32, 13, 10] ⟨[⟨['A'], some 1, ['B']⟩], []⟩
    [' ', '\r', '\n'] (by decide) (by decide)

end VibeCue
